import Mathlib

/-!
Verification of the sportslogiczone cron worker (`src/worker.py`).

The worker polls an odds-advantage feed, normalizes each raw advantage
record into a betting-edge document, and upserts the documents into a
store keyed by `key`, while exposing `GET /` and `GET /status`.

The embedding below translates the Python source:
* `process_advantage_data` (lines 90-122) — the per-record transformer;
  Python dict access `d['f']` on an absent field raises `KeyError`,
  `d.get('f')` yields `None`, list indexing on an empty list raises
  `IndexError`, and the `if participant` guard at lines 114-115 tests
  truthiness, so a present-but-empty participant object yields nulls;
  numbers are modelled as exact rationals; the call to
  `datetime.utcnow()` is modelled as an explicit `now : Nat` parameter.
* `update_database` (lines 124-148) — `replaceOne` upserts keyed on `key`
  over a store modelled as a list of documents.
* `worker` (lines 150-190) — the retry/backoff loop, modelled as a step
  function from the retry counter and the cycle's outcome to the new
  counter and the sleeps performed.
* `parse_mongodb_uri` (lines 24-36) and the environment configuration.
  The `MONGODB_URI += ...` at lines 32/34 carries no `global`
  declaration, making the name function-local, so line 26 raises
  `UnboundLocalError` on every call; every worker iteration and every
  `/status` request therefore takes the generic error path.
* `worker_status` (lines 204-228) — the `/status` endpoint over the store.
-/

namespace SLZ

/-- Participant object carried by an outcome (`outcomes[i]['participant']`). -/
structure Participant where
  name : Option String
  sport : Option String
deriving DecidableEq

/-- One entry of `advantage['outcomes']`. -/
structure Outcome where
  participant : Option Participant
  payout : Option ℚ
  source : Option String
deriving DecidableEq

/-- One entry of `advantage['marketStatistics']`. -/
structure MarketStatistic where
  value : Option ℚ
deriving DecidableEq

/-- One entry of `advantage['market']['event']['participants']`. -/
structure EventParticipant where
  name : Option String
deriving DecidableEq

/-- `advantage['market']['event']['competitionInstance']`. -/
structure CompetitionInstance where
  name : Option String
deriving DecidableEq

/-- `advantage['market']['event']`. -/
structure MarketEvent where
  name : Option String
  participants : Option (List EventParticipant)
  startTime : Option String
  competitionInstance : Option CompetitionInstance
deriving DecidableEq

/-- `advantage['market']`. -/
structure Market where
  type : Option String
  event : Option MarketEvent
deriving DecidableEq

/-- A raw advantage record from the feed.  Any field may be absent, hence
every field is an `Option`. -/
structure RawAdvantage where
  key : Option String
  type : Option String
  lastFoundAt : Option String
  market : Option Market
  outcomes : Option (List Outcome)
  marketStatistics : Option (List MarketStatistic)
deriving DecidableEq

/-- The normalized edge document built by `process_advantage_data`. -/
structure NormalizedEdge where
  key : String
  edge : String
  lastFoundAt : String
  type : String
  market_name : String
  participants : List String
  outcome_payout : Option ℚ
  source : Option String
  participant : Option String
  sport : Option String
  implied_probability : Option ℚ
  profit_potential : Option ℚ
  EV : Option ℚ
  event_start_time : Option String
  competition_instance_name : Option String
  updated_at : Nat
deriving DecidableEq

/-- Runtime errors `process_advantage_data` can raise: `KeyError` from
`d['f']` on an absent field, `IndexError` from indexing an empty list. -/
inductive ProcErr where
  | keyError (fld : String)
  | indexError
deriving DecidableEq

/-- Python `d['f']`: the value when present, `KeyError` otherwise. -/
def req (o : Option α) (fld : String) : Except ProcErr α :=
  match o with
  | none => .error (.keyError fld)
  | some v => .ok v

/-- Line 92: `outcomes = advantage.get('outcomes', [])`. -/
def getOutcomes (a : RawAdvantage) : List Outcome := a.outcomes.getD []

/-- Line 93: `participant = outcomes[0].get('participant') if outcomes else None`. -/
def firstParticipant (a : RawAdvantage) : Option Participant :=
  match getOutcomes a with
  | [] => none
  | o :: _ => o.participant

/-- Line 94: `advantage.get('marketStatistics', [{}])[0].get('value')`.
When the key is absent the default `[{}]` makes the result `None`; when it
is present but the list is empty, indexing raises `IndexError`. -/
def impliedProbabilityStep (a : RawAdvantage) : Except ProcErr (Option ℚ) :=
  match a.marketStatistics with
  | none => .ok none
  | some [] => .error .indexError
  | some (s :: _) => .ok s.value

/-- Line 95: `outcome_payout = outcomes[0].get('payout') if outcomes else None`. -/
def firstPayout (a : RawAdvantage) : Option ℚ :=
  match getOutcomes a with
  | [] => none
  | o :: _ => o.payout

/-- Line 113: `outcomes[0].get('source') if outcomes else None`. -/
def firstSource (a : RawAdvantage) : Option String :=
  match getOutcomes a with
  | [] => none
  | o :: _ => o.source

/-- Line 111: `[p['name'] for p in advantage['market']['event']['participants']]`;
a participant entry without `'name'` raises `KeyError`. -/
def getNames : List EventParticipant → Except ProcErr (List String)
  | [] => .ok []
  | p :: ps =>
    match p.name with
    | none => .error (.keyError "name")
    | some n =>
      match getNames ps with
      | .error e => .error e
      | .ok ns => .ok (n :: ns)

/-- Lines 114-115: `participant['fld'] if participant else None`.  Python
tests the truthiness of the participant value from line 93: `None` and a
present-but-empty dict are falsy and yield `None`; a non-empty dict (one
carrying `name` or `sport`) is truthy and is indexed, raising `KeyError`
when the requested field is absent. -/
def participantField (po : Option Participant) (f : Participant → Option String)
    (fld : String) : Except ProcErr (Option String) :=
  match po with
  | none => .ok none
  | some p =>
    if p.name.isSome || p.sport.isSome then
      match req (f p) fld with
      | .error e => .error e
      | .ok v => .ok (some v)
    else .ok none

/-- Lines 97-103: `profit_potential` and `EV`, both `None` unless both the
implied probability and the payout are present. -/
def derivedNumbers (ip po : Option ℚ) : Option ℚ × Option ℚ :=
  match ip, po with
  | some i, some p =>
    let pp := (p - 1) * 100
    let d := i / 100
    (some pp, some (d * pp - (1 - d) * 100))
  | _, _ => (none, none)

/-- `process_advantage_data` (lines 90-122), with field accesses performed
in Python's evaluation order: lines 92-103 first, then the dict literal's
values top to bottom. -/
def process_advantage_data (a : RawAdvantage) (now : Nat) : Except ProcErr NormalizedEdge :=
  match impliedProbabilityStep a with
  | .error e => .error e
  | .ok ip =>
    let po := firstPayout a
    let pp := (derivedNumbers ip po).1
    let ev := (derivedNumbers ip po).2
    match req a.key "key" with
    | .error e => .error e
    | .ok k =>
      match req a.type "type" with
      | .error e => .error e
      | .ok advType =>
        match req a.lastFoundAt "lastFoundAt" with
        | .error e => .error e
        | .ok lf =>
          match req a.market "market" with
          | .error e => .error e
          | .ok mk =>
            match req mk.type "type" with
            | .error e => .error e
            | .ok mtype =>
              match req mk.event "event" with
              | .error e => .error e
              | .ok evnt =>
                match req evnt.name "name" with
                | .error e => .error e
                | .ok mname =>
                  match req evnt.participants "participants" with
                  | .error e => .error e
                  | .ok partsRaw =>
                    match getNames partsRaw with
                    | .error e => .error e
                    | .ok names =>
                      match participantField (firstParticipant a) Participant.name "name" with
                      | .error e => .error e
                      | .ok pn =>
                        match participantField (firstParticipant a) Participant.sport "sport" with
                        | .error e => .error e
                        | .ok psp =>
                          .ok { key := k, edge := advType, lastFoundAt := lf,
                                type := mtype, market_name := mname,
                                participants := names, outcome_payout := po,
                                source := firstSource a, participant := pn,
                                sport := psp, implied_probability := ip,
                                profit_potential := pp, EV := ev,
                                event_start_time := evnt.startTime,
                                competition_instance_name :=
                                  (evnt.competitionInstance.getD { name := none }).name,
                                updated_at := now }

/-- `True` on `process_advantage_data` results that did not raise. -/
def isSuccess : Except ProcErr NormalizedEdge → Bool
  | .ok _ => true
  | .error _ => false

/-- The first outcome's participant value passes lines 114-115 without a
`KeyError` exactly when it is absent, a present-but-empty (falsy) object,
or an object carrying both `name` and `sport`; a non-empty object missing
one of the two is truthy and gets indexed, raising `KeyError`. -/
def participantsOk (a : RawAdvantage) : Bool :=
  match firstParticipant a with
  | none => true
  | some p =>
    if p.name.isSome || p.sport.isSome then p.name.isSome && p.sport.isSome
    else true

/-- Exactly the raw-advantage shapes on which `process_advantage_data`
raises no error: `marketStatistics` must not be a present-but-empty list;
`key`, `type`, `lastFoundAt`, `market`, `market.type`, `market.event`,
`market.event.name`, `market.event.participants` must be present; every
event participant must carry `name`; and a present non-empty
first-outcome participant object must carry both `name` and `sport` (a
present-but-empty one is falsy at line 114 and passes with nulls). -/
def shapeOk (a : RawAdvantage) : Bool :=
  (match a.marketStatistics with | some [] => false | _ => true)
  && a.key.isSome && a.type.isSome && a.lastFoundAt.isSome
  && (match a.market with
      | none => false
      | some mk =>
        mk.type.isSome &&
        (match mk.event with
         | none => false
         | some evnt =>
           evnt.name.isSome &&
           (match evnt.participants with
            | none => false
            | some ps => ps.all (fun p => p.name.isSome))))
  && participantsOk a

/-- The implied probability the transformer extracts when it does not
raise: the first `marketStatistics` entry's `value`, else `None`. -/
def ipValue (a : RawAdvantage) : Option ℚ :=
  match a.marketStatistics with
  | some (s :: _) => s.value
  | _ => none

/-- The normalized edge `process_advantage_data` produces on a well-shaped
record, before stamping `updated_at` (the `getD` defaults are only reached
on ill-shaped records, where the transformer raises instead). -/
def extractBase (a : RawAdvantage) : NormalizedEdge :=
  let ip := ipValue a
  let po := firstPayout a
  { key := a.key.getD ""
    edge := a.type.getD ""
    lastFoundAt := a.lastFoundAt.getD ""
    type := (a.market.bind Market.type).getD ""
    market_name := ((a.market.bind Market.event).bind MarketEvent.name).getD ""
    participants :=
      (((a.market.bind Market.event).bind MarketEvent.participants).getD []).map
        (fun p => p.name.getD "")
    outcome_payout := po
    source := firstSource a
    participant := (firstParticipant a).bind Participant.name
    sport := (firstParticipant a).bind Participant.sport
    implied_probability := ip
    profit_potential := (derivedNumbers ip po).1
    EV := (derivedNumbers ip po).2
    event_start_time := (a.market.bind Market.event).bind MarketEvent.startTime
    competition_instance_name :=
      ((((a.market.bind Market.event).bind MarketEvent.competitionInstance)).getD
        { name := none }).name
    updated_at := 0 }

/-- `extractBase` stamped with the cycle timestamp. -/
def extractEdge (a : RawAdvantage) (now : Nat) : NormalizedEdge :=
  { extractBase a with updated_at := now }

/-! ### Persister: `update_database` (lines 124-148) -/

/-- One `replaceOne` upsert: replace the first stored document whose `key`
matches the bet's `key`, in full; insert the bet when no document matches. -/
def replaceOne : List NormalizedEdge → NormalizedEdge → List NormalizedEdge
  | [], e => [e]
  | d :: ds, e => if d.key = e.key then e :: ds else d :: replaceOne ds e

/-- `update_database`: one `replaceOne`-with-upsert per bet, keyed on `key`. -/
def update_database (coll : List NormalizedEdge) (bets : List NormalizedEdge) :
    List NormalizedEdge :=
  bets.foldl replaceOne coll

/-- Number of stored documents whose `key` equals `k`. -/
def countKey : List NormalizedEdge → String → Nat
  | [], _ => 0
  | d :: ds, k => (if d.key = k then 1 else 0) + countKey ds k

/-! ### Poller: the `worker` loop (lines 150-190) -/

/-- How one cycle of the `worker` loop ends: full success; the feed
answered without an `advantages` payload (lines 161-164); a MongoDB
`ConnectionFailure`/`ServerSelectionTimeoutError` (lines 175-184); any
other exception (lines 186-188).  Feed request failures
(`requests.exceptions.RequestException` re-raised at line 88) match none
of the `except` clauses before the generic one, so they are
`otherError`, as is the `UnboundLocalError` out of `parse_mongodb_uri`. -/
inductive CycleOutcome where
  | success
  | noData
  | connError
  | otherError
deriving DecidableEq

/-- Line 153: `max_retries = 3`. -/
def max_retries : Nat := 3

/-- What one iteration of the loop leaves behind: the new value of
`retry_count` and the sleeps performed, in seconds and in order. -/
structure StepOut where
  retry_count : Nat
  sleeps : List Nat
deriving DecidableEq

/-- One iteration of the `worker` loop body given the current
`retry_count` and the cycle's outcome.  Success resets the counter and
sleeps the 60s interval; a missing `advantages` payload sleeps 60s and
`continue`s; a pymongo connection error increments the counter, and
either sleeps 30s to retry (counter below `max_retries`) or resets the
counter and sleeps the full 60s interval; any other exception sleeps 60s
in its handler and then the 60s interval at the loop's end, touching
neither the counter nor the 30s backoff.  The `connError` branch
transcribes lines 175-184 as written; in the running program it is dead
code, because `setup_mongodb_connection` raises `UnboundLocalError`
before any pymongo error can occur, and that takes the `otherError`
path. -/
def worker_step (rc : Nat) (o : CycleOutcome) : StepOut :=
  match o with
  | .success => ⟨0, [60]⟩
  | .noData => ⟨rc, [60]⟩
  | .connError =>
    let rc2 := rc + 1
    if max_retries ≤ rc2 then ⟨0, [60]⟩ else ⟨rc2, [30]⟩
  | .otherError => ⟨rc, [60, 60]⟩

/-- Run the `worker` loop through a finite list of cycle outcomes,
returning the final `retry_count` and the concatenated sleep trace. -/
def worker_run (rc : Nat) : List CycleOutcome → Nat × List Nat
  | [] => (rc, [])
  | o :: os =>
    let s := worker_step rc o
    let rest := worker_run s.retry_count os
    (rest.1, s.sleeps ++ rest.2)

/-! ### Configuration (lines 16-36) and its use inside the loop -/

/-- The three environment-sourced values (lines 17-19). -/
structure Config where
  mongodb_uri : Option String
  rapid_api_key : Option String
  rapid_api_host : Option String
deriving DecidableEq

/-- The Python error `parse_mongodb_uri` raises on every call: the
augmented assignments `MONGODB_URI += ...` at lines 32/34 carry no
`global` declaration, which makes `MONGODB_URI` local to the whole
function body, so the very first read of it — the guard at line 26 —
references an unassigned local variable. -/
def unboundLocalMsg : String :=
  "UnboundLocalError: local variable MONGODB_URI referenced before assignment"

/-- `parse_mongodb_uri` (lines 24-36).  Because the `+=` at lines 32/34
makes `MONGODB_URI` function-local without a `global` declaration, the
read in the line-26 guard raises `UnboundLocalError` before any
validation or `ssl=true` rewriting can happen — on every call, whether or
not the environment variable is set.  The intended validate-and-return
body (lines 26-36) is dead code. -/
def parse_mongodb_uri (_cfg : Config) : Except String String :=
  .error unboundLocalMsg

/-- What one iteration of the `worker` loop does to the process. -/
inductive IterationResult where
  | continues (retry_count : Nat) (sleeps : List Nat)
  | halts
deriving DecidableEq

/-- One iteration of the `worker` loop including configuration handling:
`setup_mongodb_connection` calls `parse_mongodb_uri`, whose
`UnboundLocalError` is neither a `ConnectionFailure` nor a
`ServerSelectionTimeoutError`, so it lands in the generic
`except Exception` handler (lines 186-188) — sleep 60s there plus the 60s
interval at the loop's end, then loop again.  The `.ok` branch
transcribes the rest of the loop body (the cycle's outcome `ext`
standing for the external world, handled by `worker_step`), but it is
unreachable: `parse_mongodb_uri` raises on every call, whatever the
configuration.  No branch of the loop terminates the process. -/
def worker_iteration (cfg : Config) (rc : Nat) (ext : CycleOutcome) : IterationResult :=
  match parse_mongodb_uri cfg with
  | .error _ => .continues rc [60, 60]
  | .ok _ => .continues (worker_step rc ext).retry_count (worker_step rc ext).sleeps

/-! ### StatusReporter: `worker_status` (lines 204-228) -/

/-- The JSON body of a `/status` response. -/
structure StatusBody where
  status : String
  database_connected : Bool
  last_update : Option Nat
  error : Option String
deriving DecidableEq

/-- Lines 210-214: `find_one` sorted by `updated_at` descending — the
stored document with the greatest `updated_at`, `None` on an empty store. -/
def findLastUpdate : List NormalizedEdge → Option NormalizedEdge
  | [] => none
  | d :: ds =>
    match findLastUpdate ds with
    | none => some d
    | some m => if m.updated_at ≤ d.updated_at then some d else some m

/-- `worker_status` (lines 204-228): the endpoint's HTTP code and body as
a function of the stored collection and the configuration.  The handler
first calls `setup_mongodb_connection`, which raises `UnboundLocalError`
out of `parse_mongodb_uri` before the store is ever touched, so the
`except` branch answers 500 whatever the store holds; the 200 branch
transcribes lines 210-221 but is unreachable. -/
def worker_status (store : List NormalizedEdge) (cfg : Config) : Nat × StatusBody :=
  match parse_mongodb_uri cfg with
  | .error e =>
    (500, { status := "error", database_connected := false,
            last_update := none, error := some e })
  | .ok _ =>
    (200, { status := "healthy", database_connected := true,
            last_update := (findLastUpdate store).map NormalizedEdge.updated_at,
            error := none })

/-- Forget the `updated_at` stamp of a normalized edge, for comparing two
transformer outputs up to the wall-clock reading. -/
def eraseTime (e : NormalizedEdge) : NormalizedEdge := { e with updated_at := 0 }

/-! ### Concrete records used by witnesses and counterexamples -/

/-- A fully populated market used by several concrete records. -/
def marketFull : Market :=
  { type := some "moneyline"
    event := some
      { name := some "A vs B"
        participants := some [{ name := some "A" }, { name := some "B" }]
        startTime := some "2024-01-01T00:00:00Z"
        competitionInstance := none } }

/-- The spec's end-to-end example record: payout 2.5, implied
probability 45. -/
def advFull : RawAdvantage :=
  { key := some "abc"
    type := some "PLUS_EV"
    lastFoundAt := some "2024-01-01T00:00:00Z"
    market := some marketFull
    outcomes := some [{ participant := some { name := some "A", sport := some "basketball" }
                        payout := some (5 / 2)
                        source := some "bookX" }]
    marketStatistics := some [{ value := some 45 }] }

/-- Well-shaped record with empty `outcomes` and `marketStatistics`
present but empty. -/
def advEmptyStats : RawAdvantage :=
  { advFull with outcomes := some [], marketStatistics := some [] }

/-- Well-shaped record on which neither payout nor implied probability is
available: empty `outcomes`, absent `marketStatistics`. -/
def advNoDerived : RawAdvantage :=
  { advFull with outcomes := some [], marketStatistics := none }

/-- The four spec-listed mandatory fields present, `lastFoundAt` absent. -/
def advNoLastFound : RawAdvantage :=
  { advFull with lastFoundAt := none }

/-- The four spec-listed mandatory fields present, `lastFoundAt` and a
participant object present, but the participant object lacks `name`
while carrying `sport` (so it is truthy at line 114). -/
def advParticipantNoName : RawAdvantage :=
  { advFull with
      outcomes := some [{ participant := some { name := none, sport := some "basketball" }
                          payout := some (5 / 2)
                          source := some "bookX" }] }

/-- Well-shaped record whose first outcome carries a present but empty
participant object — falsy at line 114. -/
def advEmptyParticipant : RawAdvantage :=
  { advFull with
      outcomes := some [{ participant := some { name := none, sport := none }
                          payout := some (5 / 2)
                          source := some "bookX" }] }

/-- A normalized edge document with a given key and timestamp. -/
def sampleEdge (k : String) (t : Nat) : NormalizedEdge :=
  { key := k, edge := "PLUS_EV", lastFoundAt := "2024-01-01T00:00:00Z"
    type := "moneyline", market_name := "A vs B", participants := ["A", "B"]
    outcome_payout := some (5 / 2), source := some "bookX"
    participant := some "A", sport := some "basketball"
    implied_probability := some 45, profit_potential := some 150
    EV := some (25 / 2), event_start_time := some "2024-01-01T00:00:00Z"
    competition_instance_name := none, updated_at := t }


theorem getNames_ok (ps : List EventParticipant)
    (h : ps.all (fun p => p.name.isSome) = true) :
    getNames ps = .ok (ps.map (fun p => p.name.getD "")) := by
  induction ps with
  | nil => rfl
  | cons p ps ih =>
    simp only [List.all_cons, Bool.and_eq_true] at h
    obtain ⟨h1, h2⟩ := h
    obtain ⟨n, hn⟩ := Option.isSome_iff_exists.mp h1
    simp [getNames, hn, ih h2]

theorem getNames_err (ps : List EventParticipant)
    (h : ps.all (fun p => p.name.isSome) = false) :
    getNames ps = .error (.keyError "name") := by
  induction ps with
  | nil => simp at h
  | cons p ps ih =>
    rcases hn : p.name with _ | n
    · simp [getNames, hn]
    · simp only [List.all_cons, hn, Option.isSome_some, Bool.true_and] at h
      simp [getNames, hn, ih h]

theorem process_ok_aux (a : RawAdvantage) (now : Nat)
    (ipv : Option ℚ)
    (hip : impliedProbabilityStep a = .ok ipv)
    (hipv : ipValue a = ipv)
    (kv : String) (hk : a.key = some kv)
    (tv : String) (hty : a.type = some tv)
    (lv : String) (hlf : a.lastFoundAt = some lv)
    (mk : Market) (hmk : a.market = some mk)
    (mtv : String) (hmt : mk.type = some mtv)
    (evnt : MarketEvent) (hev : mk.event = some evnt)
    (env : String) (hen : evnt.name = some env)
    (psl : List EventParticipant) (hps : evnt.participants = some psl)
    (hall : psl.all (fun p => p.name.isSome) = true)
    (hpart : participantsOk a = true) :
    process_advantage_data a now = .ok (extractEdge a now) := by
  rcases hfp : firstParticipant a with _ | ⟨pn, psp⟩
  · simp [process_advantage_data, extractEdge, extractBase, hip, hipv, req, hk, hty,
      hlf, hmk, hmt, hev, hen, hps, getNames_ok psl hall, hfp, participantField]
  · rcases pn with _ | nv <;> rcases psp with _ | sv
    · simp [process_advantage_data, extractEdge, extractBase, hip, hipv, req, hk, hty,
        hlf, hmk, hmt, hev, hen, hps, getNames_ok psl hall, hfp, participantField]
    · simp [participantsOk, hfp] at hpart
    · simp [participantsOk, hfp] at hpart
    · simp [process_advantage_data, extractEdge, extractBase, hip, hipv, req, hk, hty,
        hlf, hmk, hmt, hev, hen, hps, getNames_ok psl hall, hfp, participantField]

theorem process_ok_of_shapeOk (a : RawAdvantage) (now : Nat) (h : shapeOk a = true) :
    process_advantage_data a now = .ok (extractEdge a now) := by
  simp only [shapeOk, Bool.and_eq_true] at h
  obtain ⟨⟨⟨⟨⟨hms, hk⟩, hty⟩, hlf⟩, hmk⟩, hpart⟩ := h
  obtain ⟨kv, hk2⟩ := Option.isSome_iff_exists.mp hk
  obtain ⟨tv, hty2⟩ := Option.isSome_iff_exists.mp hty
  obtain ⟨lv, hlf2⟩ := Option.isSome_iff_exists.mp hlf
  rcases hmk2 : a.market with _ | mk
  · rw [hmk2] at hmk; simp at hmk
  rw [hmk2] at hmk
  simp only [Bool.and_eq_true] at hmk
  obtain ⟨hmt, hev⟩ := hmk
  obtain ⟨mtv, hmt2⟩ := Option.isSome_iff_exists.mp hmt
  rcases hev2 : mk.event with _ | evnt
  · rw [hev2] at hev; simp at hev
  rw [hev2] at hev
  simp only [Bool.and_eq_true] at hev
  obtain ⟨hen, hps⟩ := hev
  obtain ⟨env, hen2⟩ := Option.isSome_iff_exists.mp hen
  rcases hps2 : evnt.participants with _ | psl
  · rw [hps2] at hps; simp at hps
  rw [hps2] at hps
  rcases hms2 : a.marketStatistics with _ | ⟨_ | ⟨s, sl⟩⟩
  · exact process_ok_aux a now none (by simp [impliedProbabilityStep, hms2])
      (by simp [ipValue, hms2]) kv hk2 tv hty2 lv hlf2 mk hmk2 mtv hmt2 evnt hev2
      env hen2 psl hps2 hps hpart
  · rw [hms2] at hms; simp at hms
  · exact process_ok_aux a now s.value (by simp [impliedProbabilityStep, hms2])
      (by simp [ipValue, hms2]) kv hk2 tv hty2 lv hlf2 mk hmk2 mtv hmt2 evnt hev2
      env hen2 psl hps2 hps hpart


theorem process_err_aux (a : RawAdvantage)
    (ipv : Option ℚ) (hip : impliedProbabilityStep a = .ok ipv)
    (hmsok : (match a.marketStatistics with | some [] => false | _ => true) = true)
    (h : shapeOk a = false) :
    ∃ err, ∀ now, process_advantage_data a now = .error err := by
  rcases hk2 : a.key with _ | kv
  · exact ⟨.keyError "key", fun now => by
      simp [process_advantage_data, hip, req, hk2]⟩
  rcases hty2 : a.type with _ | tv
  · exact ⟨.keyError "type", fun now => by
      simp [process_advantage_data, hip, req, hk2, hty2]⟩
  rcases hlf2 : a.lastFoundAt with _ | lv
  · exact ⟨.keyError "lastFoundAt", fun now => by
      simp [process_advantage_data, hip, req, hk2, hty2, hlf2]⟩
  rcases hmk2 : a.market with _ | mk
  · exact ⟨.keyError "market", fun now => by
      simp [process_advantage_data, hip, req, hk2, hty2, hlf2, hmk2]⟩
  rcases hmt2 : mk.type with _ | mtv
  · exact ⟨.keyError "type", fun now => by
      simp [process_advantage_data, hip, req, hk2, hty2, hlf2, hmk2, hmt2]⟩
  rcases hev2 : mk.event with _ | evnt
  · exact ⟨.keyError "event", fun now => by
      simp [process_advantage_data, hip, req, hk2, hty2, hlf2, hmk2, hmt2, hev2]⟩
  rcases hen2 : evnt.name with _ | env
  · exact ⟨.keyError "name", fun now => by
      simp [process_advantage_data, hip, req, hk2, hty2, hlf2, hmk2, hmt2, hev2, hen2]⟩
  rcases hps2 : evnt.participants with _ | psl
  · exact ⟨.keyError "participants", fun now => by
      simp [process_advantage_data, hip, req, hk2, hty2, hlf2, hmk2, hmt2, hev2, hen2, hps2]⟩
  cases hall : psl.all (fun p => p.name.isSome)
  · exact ⟨.keyError "name", fun now => by
      simp [process_advantage_data, hip, req, hk2, hty2, hlf2, hmk2, hmt2, hev2, hen2,
        hps2, getNames_err psl hall]⟩
  rcases hfp : firstParticipant a with _ | ⟨pn, psp⟩
  · simp [shapeOk, participantsOk, hmsok, hfp, hk2, hty2, hlf2, hmk2, hmt2, hev2,
      hen2, hps2, hall] at h
  rcases pn with _ | nv <;> rcases psp with _ | sv
  · simp [shapeOk, participantsOk, hmsok, hfp, hk2, hty2, hlf2, hmk2, hmt2, hev2,
      hen2, hps2, hall] at h
  · exact ⟨.keyError "name", fun now => by
      simp [process_advantage_data, hip, req, hk2, hty2, hlf2, hmk2, hmt2, hev2, hen2,
        hps2, getNames_ok psl hall, hfp, participantField]⟩
  · exact ⟨.keyError "sport", fun now => by
      simp [process_advantage_data, hip, req, hk2, hty2, hlf2, hmk2, hmt2, hev2, hen2,
        hps2, getNames_ok psl hall, hfp, participantField]⟩
  · simp [shapeOk, participantsOk, hmsok, hfp, hk2, hty2, hlf2, hmk2, hmt2, hev2,
      hen2, hps2, hall] at h

theorem process_err (a : RawAdvantage) (h : shapeOk a = false) :
    ∃ err, ∀ now, process_advantage_data a now = .error err := by
  rcases hms2 : a.marketStatistics with _ | ⟨_ | ⟨s, sl⟩⟩
  · exact process_err_aux a none (by simp [impliedProbabilityStep, hms2]) (by rw [hms2]) h
  · exact ⟨.indexError, fun now => by
      simp [process_advantage_data, impliedProbabilityStep, hms2]⟩
  · exact process_err_aux a s.value (by simp [impliedProbabilityStep, hms2]) (by rw [hms2]) h

theorem process_isOk (a : RawAdvantage) (now : Nat) :
    isSuccess (process_advantage_data a now) = shapeOk a := by
  cases h : shapeOk a
  · obtain ⟨err, herr⟩ := process_err a h
    rw [herr now]; rfl
  · rw [process_ok_of_shapeOk a now h]; rfl

/-! ### Lemmas about the persister -/

theorem countKey_pos (cs : List NormalizedEdge) (k : String) (d : NormalizedEdge)
    (hd : d ∈ cs) (hk : d.key = k) : 1 ≤ countKey cs k := by
  induction cs with
  | nil => simp at hd
  | cons c cs ih =>
    simp only [countKey]
    rcases List.mem_cons.mp hd with rfl | hd2
    · rw [if_pos hk]; omega
    · have := ih hd2; omega

theorem countKey_replaceOne (coll : List NormalizedEdge) (e : NormalizedEdge)
    (h : countKey coll e.key ≤ 1) :
    countKey (replaceOne coll e) e.key = 1 := by
  induction coll with
  | nil => simp [replaceOne, countKey]
  | cons d ds ih =>
    simp only [countKey] at h
    by_cases hd : d.key = e.key
    · rw [if_pos hd] at h
      have hr : replaceOne (d :: ds) e = e :: ds := by
        simp [replaceOne, hd]
      rw [hr]
      simp [countKey]
      omega
    · rw [if_neg hd] at h
      have hr : replaceOne (d :: ds) e = d :: replaceOne ds e := by
        simp [replaceOne, hd]
      rw [hr]
      simp only [countKey, if_neg hd]
      have := ih (by omega)
      omega

theorem mem_replaceOne (coll : List NormalizedEdge) (e : NormalizedEdge)
    (h : countKey coll e.key ≤ 1) :
    ∀ d ∈ replaceOne coll e, d.key = e.key → d = e := by
  induction coll with
  | nil =>
    intro d hd _
    simp [replaceOne] at hd
    exact hd
  | cons c cs ih =>
    intro d hd hk
    simp only [countKey] at h
    by_cases hc : c.key = e.key
    · rw [if_pos hc] at h
      simp only [replaceOne, if_pos hc] at hd
      rcases List.mem_cons.mp hd with rfl | hd2
      · rfl
      · exfalso
        have := countKey_pos cs e.key d hd2 hk
        omega
    · rw [if_neg hc] at h
      simp only [replaceOne, if_neg hc] at hd
      rcases List.mem_cons.mp hd with rfl | hd2
      · exact absurd hk hc
      · exact ih (by omega) d hd2 hk

/-! ### Claim theorems -/

/-- C1: whenever the transformer succeeds on a record whose first outcome
carries a payout `po` and whose first market statistic carries a value
`ip`, the output satisfies `profit_potential = (po - 1) * 100` and
`EV = (ip/100) * profit_potential - (1 - ip/100) * 100`, exactly. -/
theorem ev_formula (a : RawAdvantage) (now : Nat) (e : NormalizedEdge) (po ip : ℚ)
    (hok : process_advantage_data a now = .ok e)
    (hpo : firstPayout a = some po)
    (hip : ipValue a = some ip) :
    e.profit_potential = some ((po - 1) * 100)
    ∧ e.EV = some ((ip / 100) * ((po - 1) * 100) - (1 - ip / 100) * 100) := by
  have hshape : shapeOk a = true := by
    have h2 := process_isOk a now
    rw [hok] at h2
    exact h2.symm
  have he : e = extractEdge a now :=
    (Except.ok.inj ((process_ok_of_shapeOk a now hshape).symm.trans hok)).symm
  subst he
  constructor
  · simp [extractEdge, extractBase, hip, hpo, derivedNumbers]
  · simp [extractEdge, extractBase, hip, hpo, derivedNumbers]

/-- Witness for `ev_formula` at the spec's end-to-end example: payout 2.5
and implied probability 45 yield profit_potential 150 and EV 12.5. -/
theorem ev_formula_witness :
    (extractEdge advFull 7).profit_potential = some 150
    ∧ (extractEdge advFull 7).EV = some (25 / 2 : ℚ) := by
  have h := ev_formula advFull 7 (extractEdge advFull 7) (5 / 2) 45 rfl rfl rfl
  refine ⟨h.1.trans ?_, h.2.trans ?_⟩ <;> norm_num

/-- C2 counterexample: feed request failures are `otherError` — they
match only the generic `except Exception` clause — so three consecutive
feed failures sleep 60s+60s each with no 30-second backoff and no
consecutive-failure counting, not the claimed three 30s-backoff retries;
moreover even the first attempt never reaches the feed, since the
iteration dies at `parse_mongodb_uri` and takes the same generic path. -/
theorem retry_counterexample :
    worker_run 0 [CycleOutcome.otherError, CycleOutcome.otherError, CycleOutcome.otherError]
      = (0, [60, 60, 60, 60, 60, 60])
    ∧ worker_iteration ⟨some "mongodb://cluster", some "k", some "h"⟩ 0
        CycleOutcome.otherError = IterationResult.continues 0 [60, 60] := by
  refine ⟨by decide, by decide⟩

/-- C2 as amended: a feed request failure is caught by the generic
exception handler, which sleeps 60s plus the 60s interval and leaves the
retry counter untouched — no in-cycle 30s retries at all; the 3-attempt /
30s-backoff / counter-reset logic (lines 175-184) is written only for
pymongo connection errors, and is unreachable in the running program
because every iteration fails at `parse_mongodb_uri` with
`UnboundLocalError` and takes the generic path. -/
theorem feed_failures_generic_handler :
    (∀ rc, worker_run rc
        [CycleOutcome.otherError, CycleOutcome.otherError, CycleOutcome.otherError]
      = (rc, [60, 60, 60, 60, 60, 60]))
    ∧ (∀ cfg rc ext, worker_iteration cfg rc ext = IterationResult.continues rc [60, 60])
    ∧ worker_run 0 [CycleOutcome.connError, CycleOutcome.connError, CycleOutcome.connError]
      = (0, [30, 30, 60]) := by
  refine ⟨fun rc => rfl, fun cfg rc ext => rfl, by decide⟩

/-- C3 counterexample: on a record whose mandatory fields are all present
but whose `marketStatistics` is present and empty (and whose `outcomes`
is empty, so the payout is unavailable), the transformer raises
`IndexError` instead of returning nulls. -/
theorem nulls_counterexample :
    advEmptyStats.outcomes = some []
    ∧ advEmptyStats.marketStatistics = some []
    ∧ process_advantage_data advEmptyStats 0 = .error ProcErr.indexError :=
  ⟨rfl, rfl, rfl⟩

/-- C3 as amended: on a well-shaped record (in particular one whose
`marketStatistics` is not a present-but-empty list), whenever the first
outcome's payout or the implied probability is unavailable the
transformer succeeds and returns `profit_potential = null`, `EV = null`. -/
theorem nulls_on_unavailable (a : RawAdvantage) (now : Nat)
    (hshape : shapeOk a = true)
    (hunavail : firstPayout a = none ∨ ipValue a = none) :
    ∃ e, process_advantage_data a now = .ok e
      ∧ e.profit_potential = none ∧ e.EV = none := by
  refine ⟨extractEdge a now, process_ok_of_shapeOk a now hshape, ?_, ?_⟩
  · rcases hunavail with hpo | hip
    · cases hipv : ipValue a <;>
        simp [extractEdge, extractBase, derivedNumbers, hpo, hipv]
    · cases hpov : firstPayout a <;>
        simp [extractEdge, extractBase, derivedNumbers, hip, hpov]
  · rcases hunavail with hpo | hip
    · cases hipv : ipValue a <;>
        simp [extractEdge, extractBase, derivedNumbers, hpo, hipv]
    · cases hpov : firstPayout a <;>
        simp [extractEdge, extractBase, derivedNumbers, hip, hpov]

/-- Witness for `nulls_on_unavailable`: a well-shaped record with empty
outcomes and absent `marketStatistics` transforms without error. -/
theorem nulls_witness : isSuccess (process_advantage_data advNoDerived 3) = true := by
  obtain ⟨e, he, h1, h2⟩ := nulls_on_unavailable advNoDerived 3 rfl (Or.inl rfl)
  rw [he]
  rfl

/-- C4: persisting the same logical edge twice (two upserts with equal
`key`) leaves exactly one document for that key in the store, and that
document equals the latest write in full — never a partial merge —
provided the store held at most one document for the key beforehand. -/
theorem upsert_idempotent (coll : List NormalizedEdge) (e1 e2 : NormalizedEdge)
    (hk : e1.key = e2.key) (hinv : countKey coll e2.key ≤ 1) :
    countKey (update_database (update_database coll [e1]) [e2]) e2.key = 1
    ∧ ∀ d ∈ update_database (update_database coll [e1]) [e2],
        d.key = e2.key → d = e2 := by
  have h1 : update_database coll [e1] = replaceOne coll e1 := rfl
  have h2 : ∀ c, update_database c [e2] = replaceOne c e2 := fun c => rfl
  rw [h1, h2]
  have hinv1 : countKey coll e1.key ≤ 1 := by rw [hk]; exact hinv
  have hc1 : countKey (replaceOne coll e1) e1.key = 1 :=
    countKey_replaceOne coll e1 hinv1
  have hinv2 : countKey (replaceOne coll e1) e2.key ≤ 1 := by
    rw [← hk, hc1]
  exact ⟨countKey_replaceOne _ e2 hinv2, mem_replaceOne _ e2 hinv2⟩

/-- Witness for `upsert_idempotent`: writing the same key twice into an
empty store leaves exactly one document for that key. -/
theorem upsert_idempotent_witness :
    countKey (update_database (update_database [] [sampleEdge "k" 1]) [sampleEdge "k" 2])
      (sampleEdge "k" 2).key = 1 :=
  (upsert_idempotent [] (sampleEdge "k" 1) (sampleEdge "k" 2) rfl (by simp [countKey])).1

/-- C5: contrary to the claim, the 200/success branch of `GET /status` is
dead code — `setup_mongodb_connection` raises `UnboundLocalError` out of
`parse_mongodb_uri` before the store is ever queried — so the endpoint
answers 500 with `database_connected = false` for every store state and
every configuration, reachable store included. -/
theorem status_always_500 (store : List NormalizedEdge) (cfg : Config) :
    worker_status store cfg
      = (500, { status := "error", database_connected := false,
                last_update := none, error := some unboundLocalMsg }) := rfl

/-- C6 counterexample: with every required configuration value absent the
iteration does not abort — it continues into the next cycle (a retry) —
and a fully populated configuration fares no better: `parse_mongodb_uri`
raises `UnboundLocalError` even then, so nothing resembling startup
validation of the configuration ever happens. -/
theorem config_counterexample :
    worker_iteration ⟨none, none, none⟩ 0 CycleOutcome.otherError
        = IterationResult.continues 0 [60, 60]
    ∧ worker_iteration ⟨none, none, none⟩ 0 CycleOutcome.otherError
        ≠ IterationResult.halts
    ∧ parse_mongodb_uri ⟨some "mongodb://cluster", some "k", some "h"⟩
        = .error unboundLocalMsg := by
  refine ⟨rfl, by decide, rfl⟩

/-- C6 as amended: no configuration value is validated at startup and
none is fatal.  `parse_mongodb_uri` raises `UnboundLocalError` on every
call — with the connection string absent or present alike — which the
worker loop's generic handler catches, sleeping 60s+60s and retrying on
the next cycle forever; the feed API key and host are never validated at
all; and no iteration ever halts the process. -/
theorem config_missing_not_fatal (cfg : Config) (rc : Nat) (ext : CycleOutcome)
    (_h : cfg.mongodb_uri = none) :
    parse_mongodb_uri cfg = .error unboundLocalMsg
    ∧ worker_iteration cfg rc ext = IterationResult.continues rc [60, 60]
    ∧ ∀ cfg2 rc2 ext2, worker_iteration cfg2 rc2 ext2 ≠ IterationResult.halts := by
  refine ⟨rfl, rfl, ?_⟩
  intro cfg2 rc2 ext2
  intro hcontra
  exact IterationResult.noConfusion hcontra

/-- Witness for `config_missing_not_fatal` at a concrete configuration. -/
theorem config_missing_witness :
    worker_iteration ⟨none, some "k", some "h"⟩ 5 CycleOutcome.success
      = IterationResult.continues 5 [60, 60] :=
  (config_missing_not_fatal ⟨none, some "k", some "h"⟩ 5 CycleOutcome.success rfl).2.1

/-- C7 counterexample: the transformer reads the wall clock, so two
applications to the same input at different clock readings both succeed
yet produce different outputs (they differ in `updated_at`). -/
theorem transformer_counterexample :
    isSuccess (process_advantage_data advFull 0) = true
    ∧ isSuccess (process_advantage_data advFull 1) = true
    ∧ process_advantage_data advFull 0 ≠ process_advantage_data advFull 1 :=
  ⟨rfl, rfl, fun h => Nat.zero_ne_one (congrArg (fun x =>
      match x with
      | Except.ok e => e.updated_at
      | Except.error _ => 0) h)⟩

/-- C7 as amended: the transformer is deterministic modulo the
`updated_at` stamp — for any raw advantage, the results at any two clock
readings agree once `updated_at` is erased (same error, or same edge in
every other field). -/
theorem transformer_deterministic_mod_time (a : RawAdvantage) (t1 t2 : Nat) :
    Except.map eraseTime (process_advantage_data a t1)
      = Except.map eraseTime (process_advantage_data a t2) := by
  cases h : shapeOk a
  · obtain ⟨err, herr⟩ := process_err a h
    rw [herr t1, herr t2]
  · rw [process_ok_of_shapeOk a t1 h, process_ok_of_shapeOk a t2 h]
    rfl

/-- C8 counterexample: a record with the four spec-listed mandatory
fields (`key`, `type`, `market.type`, `market.event.name`) all present
still fails to transform when `lastFoundAt` is absent. -/
theorem mandatory_counterexample :
    advNoLastFound.key = some "abc"
    ∧ advNoLastFound.type = some "PLUS_EV"
    ∧ advNoLastFound.market.bind Market.type = some "moneyline"
    ∧ (advNoLastFound.market.bind Market.event).bind MarketEvent.name = some "A vs B"
    ∧ process_advantage_data advNoLastFound 0 = .error (ProcErr.keyError "lastFoundAt") :=
  ⟨rfl, rfl, rfl, rfl, rfl⟩

/-- C8 as amended: the transformer succeeds on a record exactly when
`shapeOk` holds — besides the four spec-listed mandatory fields it also
requires `lastFoundAt`, `market.event.participants` with a `name` on
every entry, a non-empty `marketStatistics` when that key is present, and
both `name` and `sport` on a present non-empty first-outcome participant
object (an empty one is falsy at line 114 and passes with nulls);
absence of any mandatory field raises an error for that record. -/
theorem mandatory_fields_characterization (a : RawAdvantage) (now : Nat) :
    isSuccess (process_advantage_data a now) = shapeOk a :=
  process_isOk a now

/-- C9: beyond the four spec-listed mandatory fields, `lastFoundAt`,
`market.event.participants` and a `name` on every participants entry are
also required: a record missing any of them fails to transform even with
`key`, `type`, `market.type` and `market.event.name` all present. -/
theorem hidden_mandatory_fields (a : RawAdvantage) (now : Nat)
    (hfour : a.key.isSome = true ∧ a.type.isSome = true
      ∧ (a.market.bind Market.type).isSome = true
      ∧ ((a.market.bind Market.event).bind MarketEvent.name).isSome = true)
    (hmiss : a.lastFoundAt = none
      ∨ (a.market.bind Market.event).bind MarketEvent.participants = none
      ∨ ∃ mk evnt psl p, a.market = some mk ∧ mk.event = some evnt
          ∧ evnt.participants = some psl ∧ p ∈ psl ∧ p.name = none) :
    isSuccess (process_advantage_data a now) = false := by
  rw [process_isOk]
  obtain ⟨hk, hty, hmt, hen⟩ := hfour
  rcases hmiss with hlf | hp | ⟨mk, evnt, psl, p, hmk, hev, hps, hmem, hname⟩
  · simp [shapeOk, hlf]
  · rcases hmk : a.market with _ | mk
    · rw [hmk] at hmt; simp at hmt
    · rcases hev : mk.event with _ | evnt
      · simp [hmk, hev] at hen
      · simp only [hmk, hev, Option.some_bind] at hp
        simp [shapeOk, hmk, hev, hp]
  · have hall : psl.all (fun q => q.name.isSome) = false := by
      cases hq : psl.all (fun q => q.name.isSome)
      · rfl
      · have := List.all_eq_true.mp hq p hmem
        rw [hname] at this
        simp at this
    simp [shapeOk, hmk, hev, hps, hall]

/-- Witness for `hidden_mandatory_fields`: the four spec-listed fields
present, `lastFoundAt` absent, and the transformer fails. -/
theorem hidden_mandatory_witness :
    isSuccess (process_advantage_data advNoLastFound 0) = false :=
  hidden_mandatory_fields advNoLastFound 0 ⟨rfl, rfl, rfl, rfl⟩ (Or.inl rfl)

/-- C10 counterexample: a first-outcome participant object that is
present but empty — both `name` and `sport` absent — is falsy at line
114, so the transformer raises no error and outputs null `participant`
and `sport` although the participant object is present, contradicting
both halves of the claim. -/
theorem participant_counterexample :
    firstParticipant advEmptyParticipant = some { name := none, sport := none }
    ∧ process_advantage_data advEmptyParticipant 0
        = .ok (extractEdge advEmptyParticipant 0)
    ∧ (extractEdge advEmptyParticipant 0).participant = none
    ∧ (extractEdge advEmptyParticipant 0).sport = none :=
  ⟨rfl, rfl, rfl, rfl⟩

/-- C10 as amended: when the first outcome carries a non-empty
participant object (one bearing `name` or `sport`, hence truthy), both
fields are required — the transformer fails if either is absent — and on
success the `participant`/`sport` outputs are null exactly when the
first-outcome participant object is absent or empty. -/
theorem participant_object_fields (a : RawAdvantage) (now : Nat) :
    (∀ p, firstParticipant a = some p →
      (p.name.isSome || p.sport.isSome) = true →
      (p.name = none ∨ p.sport = none) →
      isSuccess (process_advantage_data a now) = false)
    ∧ (∀ e, process_advantage_data a now = .ok e →
        ((e.participant = none ↔
            (firstParticipant a = none
              ∨ firstParticipant a = some { name := none, sport := none }))
          ∧ (e.sport = none ↔
            (firstParticipant a = none
              ∨ firstParticipant a = some { name := none, sport := none })))) := by
  constructor
  · intro p hfp htr hmiss
    rw [process_isOk]
    have hpart : participantsOk a = false := by
      rcases hmiss with hn | hs
      · have hsp : p.sport.isSome = true := by simpa [hn] using htr
        simp [participantsOk, hfp, hn, hsp]
      · have hnm : p.name.isSome = true := by simpa [hs] using htr
        simp [participantsOk, hfp, hs, hnm]
    simp [shapeOk, hpart]
  · intro e hok
    have hsh : shapeOk a = true := by
      have h2 := process_isOk a now
      rw [hok] at h2
      exact h2.symm
    have he : e = extractEdge a now :=
      (Except.ok.inj ((process_ok_of_shapeOk a now hsh).symm.trans hok)).symm
    subst he
    rcases hfp : firstParticipant a with _ | ⟨pn, psp⟩
    · simp [extractEdge, extractBase, hfp]
    · have hpart : participantsOk a = true := by
        simp only [shapeOk, Bool.and_eq_true] at hsh
        exact hsh.2
      rcases pn with _ | nv <;> rcases psp with _ | sv
      · simp [extractEdge, extractBase, hfp]
      · simp [participantsOk, hfp] at hpart
      · simp [participantsOk, hfp] at hpart
      · simp [extractEdge, extractBase, hfp]

/-- Witness for `participant_object_fields`: a non-empty first-outcome
participant object lacking `name` makes the transformer fail. -/
theorem participant_fields_witness :
    isSuccess (process_advantage_data advParticipantNoName 0) = false :=
  (participant_object_fields advParticipantNoName 0).1
    { name := none, sport := some "basketball" } rfl rfl (Or.inl rfl)

end SLZ
